import Mathlib

/-!
Shallow embedding of `passwordless-redisstore` (src/lib/redisstore.js, plus the
variant in src/unnamed/part_000) together with proofs about the claims of the
specification.

Conventions of the embedding:
  * JavaScript strings are Lean `String`s; the millisecond timestamps and
    TTL values handled by the code are `Int` (the code only ever adds,
    compares and ceil-divides them).
  * The Redis database is an association list of entries
    `key -> (record fields, optional store-level expiry in seconds)`.
    `hmset` always writes the three fields `token`, `origin`, `ttl` at once,
    so a record is modelled as a single value.
  * Each operation is a pure function of the store state, the database, the
    current time, a bcrypt salt counter, and one `Option Nat` fault per
    underlying asynchronous call (`none` = the call succeeds, `some e` = the
    call reports error `e`).  The operation returns its callback outcome, the
    new store state / database / salt counter, and the trace of Redis commands
    it issued, in order.
  * bcrypt is an external collaborator (spec section 1); it is modelled as a
    deterministic hash of (cost, per-call random salt, plaintext) in a
    decodable format, with a fresh salt drawn from the counter at each call —
    exactly the salted-adaptive-hash interface the spec assumes.
-/

/-- A JavaScript value as far as the argument guards of the code can tell:
either a (finite) number, or a non-numeric value of which only the
truthiness matters (e.g. `JsVal.other false` stands for `NaN`, `""`,
`null`, `undefined` or `false`; `JsVal.other true` for `"test"` or `{}`). -/
inductive JsVal where
  | num (n : Int)
  | other (truthy : Bool)
deriving DecidableEq, Repr

/-- JavaScript truthiness of a `JsVal` (`0`, `NaN`, `""`, `null`, `undefined`
and `false` are falsy). -/
def jsTruthy : JsVal → Bool
  | JsVal.num n => n != 0
  | JsVal.other t => t

/-- The helper at the bottom of redisstore.js:
`isNumber(n) = !isNaN(parseFloat(n)) && isFinite(n)`.  A finite number passes;
a non-numeric value (including `NaN`) does not. -/
def isNumber : JsVal → Bool
  | JsVal.num _ => true
  | JsVal.other _ => false

/-! ### Model of the bcrypt collaborator -/

/-- Modelled from the spec (section 6, external cryptographic primitive):
`bcrypt.hash` with cost factor `cost` and the per-call random salt `salt`.
The output embeds cost, salt and payload in a decodable format, so that
distinct salts give distinct hashes and `bcryptCompare` can check a
candidate plaintext — the interface the spec assumes of bcrypt. -/
def bcryptHash (cost salt : Nat) (plain : String) : String :=
  ⟨'$' :: (List.replicate cost 'r' ++ '$' :: (List.replicate salt 's' ++ '$' :: plain.data))⟩

/-- Decoder for the modelled bcrypt format: recovers (cost, salt, payload). -/
def parseBcrypt (l : List Char) : Option (Nat × Nat × List Char) :=
  match l with
  | '$' :: rest =>
    match rest.dropWhile (fun c => c != '$') with
    | '$' :: rest2 =>
      match rest2.dropWhile (fun c => c != '$') with
      | '$' :: payload =>
        some ((rest.takeWhile (fun c => c != '$')).length,
              (rest2.takeWhile (fun c => c != '$')).length, payload)
      | _ => none
    | _ => none
  | _ => none

/-- Modelled from the spec (section 6, external cryptographic primitive):
`bcrypt.compare plain hashed` — true iff `hashed` is a well-formed hash whose
payload was `plain`. -/
def bcryptCompare (plain hashed : String) : Bool :=
  match parseBcrypt hashed.data with
  | some (_, _, payload) => payload == plain.data
  | none => false

theorem takeWhile_replicate_append (ch : Char) (h : (ch != '$') = true) (n : Nat)
    (rest : List Char) :
    (List.replicate n ch ++ '$' :: rest).takeWhile (fun c => c != '$') =
      List.replicate n ch := by
  induction n with
  | zero => simp [List.takeWhile_cons]
  | succ n ih => simp [List.replicate_succ, List.takeWhile_cons, h, ih]

theorem dropWhile_replicate_append (ch : Char) (h : (ch != '$') = true) (n : Nat)
    (rest : List Char) :
    (List.replicate n ch ++ '$' :: rest).dropWhile (fun c => c != '$') =
      '$' :: rest := by
  induction n with
  | zero => simp [List.dropWhile_cons]
  | succ n ih => simp [List.replicate_succ, List.dropWhile_cons, h, ih]

theorem parseBcrypt_bcryptHash (c s : Nat) (p : String) :
    parseBcrypt (bcryptHash c s p).data = some (c, s, p.data) := by
  simp [bcryptHash, parseBcrypt, takeWhile_replicate_append, dropWhile_replicate_append]

theorem bcryptCompare_bcryptHash_self (c s : Nat) (p : String) :
    bcryptCompare p (bcryptHash c s p) = true := by
  simp [bcryptCompare, parseBcrypt_bcryptHash]

theorem string_eq_of_data_eq {s t : String} (h : s.data = t.data) : s = t := by
  cases s; cases t; exact congrArg String.mk h

theorem bcryptCompare_bcryptHash_ne (c s : Nat) (p q : String) (h : p ≠ q) :
    bcryptCompare p (bcryptHash c s q) = false := by
  simp only [bcryptCompare, parseBcrypt_bcryptHash]
  by_contra hne
  have hd : q.data = p.data := by
    simpa [beq_iff_eq] using hne
  exact absurd (string_eq_of_data_eq hd).symm h

theorem bcryptHash_ne_plain (c s : Nat) (p : String) : bcryptHash c s p ≠ p := by
  intro h
  have hlen := congrArg (fun t => t.data.length) h
  simp [bcryptHash] at hlen
  omega

theorem bcryptHash_salt_injective (c s1 s2 : Nat) (p : String)
    (h : bcryptHash c s1 p = bcryptHash c s2 p) : s1 = s2 := by
  have h1 := parseBcrypt_bcryptHash c s1 p
  have h2 := parseBcrypt_bcryptHash c s2 p
  rw [h] at h1
  rw [h1] at h2
  injection h2 with h3
  have := congrArg (fun x => x.2.1) h3
  simpa using this

/-! ### The Redis database model -/

/-- The per-user record written by `storeOrUpdate` via `hmset`
(fields `token`, `origin`, `ttl` of redisstore.js). -/
structure TokenRecord where
  token : String
  origin : String
  ttl : Int
deriving DecidableEq, Repr

/-- One Redis key with its hash-map value and the store-level expiry
(in whole seconds) last assigned to it via `expire`, if any. -/
structure DBEntry where
  key : String
  rcd : TokenRecord
  exp : Option Int
deriving DecidableEq, Repr

/-- The Redis database: a list of entries.  A well-formed database has
pairwise distinct keys (Redis keys are unique). -/
abbrev DB := List DBEntry

/-- Keys of a database. -/
def dbKeysOf (db : DB) : List String := db.map (fun e => e.key)

/-- Well-formedness: no duplicate keys. -/
def dbWF (db : DB) : Prop := (dbKeysOf db).Nodup

/-- Find the entry stored at `k` (Redis keys are unique; the first match). -/
def dbFind : DB → String → Option DBEntry
  | [], _ => none
  | e :: rest, k => if e.key = k then some e else dbFind rest k

/-- `hgetall k`: the hash-map value at `k`, or `none` when the key is absent. -/
def dbLookup (db : DB) (k : String) : Option TokenRecord :=
  (dbFind db k).map (fun e => e.rcd)

/-- `hmset k r`: overwrite the fields at `k` (all three fields are always
written together), keeping any store-level expiry; create the key when
absent.  -/
def dbHmset : DB → String → TokenRecord → DB
  | [], k, r => [⟨k, r, none⟩]
  | e :: rest, k, r =>
    if e.key = k then ⟨k, r, e.exp⟩ :: rest else e :: dbHmset rest k r

/-- `expire k s`: assign a store-level expiry of `s` seconds to key `k`
(no effect when the key is absent). -/
def dbExpire : DB → String → Int → DB
  | [], _, _ => []
  | e :: rest, k, s =>
    if e.key = k then ⟨e.key, e.rcd, some s⟩ :: rest else e :: dbExpire rest k s

/-- `del k`: remove key `k`. -/
def dbDel (db : DB) (k : String) : DB :=
  db.filter (fun e => e.key != k)

/-- Does `s` start with `pre`?  (The glob pattern `pre ++ "*"` of `keys`
matches exactly these keys; the token-key namespace never contains glob
metacharacters.) -/
def strHasPrefix (pre s : String) : Bool := pre.data.isPrefixOf s.data

/-- `keys (pre ++ "*")`: all keys of the database starting with `pre`. -/
def dbKeysMatching (db : DB) (pre : String) : List String :=
  (db.filter (fun e => strHasPrefix pre e.key)).map (fun e => e.key)

/-- The Redis commands the store can issue, as recorded in an operation's
trace (in issue order). -/
inductive Cmd where
  | select (database : Int)
  | hgetall (key : String)
  | hmset (key : String) (r : TokenRecord)
  | expire (key : String) (sec : Int)
  | del (key : String)
  | keys (pat : String)
deriving DecidableEq, Repr

/-! ### The store -/

/-- The state a `RedisStore` instance owns: the configured database index,
the token key namespace, and the lazily set `_selected` flag. -/
structure RedisStore where
  database : Int
  tokenKey : String
  selected : Bool
deriving DecidableEq, Repr

/-- The `RedisStore(port, host, options)` constructor (redisstore.js lines
21-42) restricted to the state it produces.  `database` is
`options.redisstore.database` as a JS value (`JsVal.other false` models an
absent/falsy value such as `undefined` or `NaN`), `tokenkey` is
`options.redisstore.tokenkey` (`""` when absent — both are falsy).
`none` models the synchronously thrown construction error; no connection
is attempted before the throw. -/
def mkStore (database : JsVal) (tokenkey : String) : Option RedisStore :=
  if jsTruthy database = true ∧ isNumber database = false then
    none
  else
    some { database := if jsTruthy database = true then
                         match database with
                         | JsVal.num n => n
                         | JsVal.other _ => 0
                       else 0
           tokenKey := if tokenkey = "" then "pwdless:" else tokenkey
           selected := false }

namespace RedisStore

/-- `RedisStore.prototype._select` (redisstore.js lines 224-238): when the
`_selected` flag is set, invoke the callback at once and issue no command;
otherwise issue `select database` — on success set the flag, on failure
report the error and leave the flag unset.  Returns (callback error, new
state, issued commands). -/
def redisSelect (st : RedisStore) (selErr : Option Nat) :
    Option Nat × RedisStore × List Cmd :=
  if st.selected then
    (none, st, [])
  else
    match selErr with
    | some e => (some e, st, [Cmd.select st.database])
    | none => (none, { st with selected := true }, [Cmd.select st.database])

/-- Outcome of `authenticate`: a synchronous throw of
`TokenStore:authenticate called with invalid parameters`, or the callback
invocation `callback(error, valid, referrer)`. -/
inductive AuthOut where
  | thrown
  | cb (err : Option Nat) (valid : Bool) (referrer : Option String)
deriving DecidableEq, Repr

/-- `RedisStore.prototype.authenticate` (redisstore.js lines 59-91).
`hasCb` records whether a callback argument was supplied.  Returns
(outcome, new store state, issued commands); the database is not
mutated. -/
def authenticate (st : RedisStore) (db : DB) (now : Int)
    (selErr hgetallErr compareErr : Option Nat)
    (token uid : String) (hasCb : Bool) : AuthOut × RedisStore × List Cmd :=
  if token = "" ∨ uid = "" ∨ hasCb = false then
    (AuthOut.thrown, st, [])
  else
    match redisSelect st selErr with
    | (some e, st1, tr) => (AuthOut.cb (some e) false none, st1, tr)
    | (none, st1, tr) =>
      let key := st1.tokenKey ++ uid
      let tr1 := tr ++ [Cmd.hgetall key]
      match hgetallErr with
      | some e => (AuthOut.cb (some e) false none, st1, tr1)
      | none =>
        match dbLookup db key with
        | none => (AuthOut.cb none false none, st1, tr1)
        | some obj =>
          if now > obj.ttl then
            (AuthOut.cb none false none, st1, tr1)
          else
            match compareErr with
            | some e => (AuthOut.cb (some e) false none, st1, tr1)
            | none =>
              if bcryptCompare token obj.token then
                (AuthOut.cb none true (some obj.origin), st1, tr1)
              else
                (AuthOut.cb none false none, st1, tr1)

/-- Outcome of an operation whose callback carries only an error slot
(`storeOrUpdate`, `invalidateUser`, `clear`): a synchronous invalid-parameter
throw, or `callback(error?)`.  (On a selection error the code actually calls
`callback(err, false, null)`; the extra arguments are ignored by callers of
this signature and are dropped here.) -/
inductive SimpleOut where
  | thrown
  | cb (err : Option Nat)
deriving DecidableEq, Repr

/-- `Math.ceil(ms / 1000)` on an integer number of milliseconds. -/
def ceilDiv1000 (ms : Int) : Int := -(Int.ediv (-ms) 1000)

/-- `RedisStore.prototype.storeOrUpdate` (redisstore.js lines 104-140).
`salt` is the bcrypt salt counter (the per-call random salt supply);
`msToLive` is the raw argument as a JS value.  Returns
(outcome, new store state, new database, new salt counter, issued
commands). -/
def storeOrUpdate (st : RedisStore) (db : DB) (now : Int) (salt : Nat)
    (selErr hashErr hmsetErr expireErr : Option Nat)
    (token uid : String) (msToLive : JsVal) (originUrl : Option String)
    (hasCb : Bool) : SimpleOut × RedisStore × DB × Nat × List Cmd :=
  if token = "" ∨ uid = "" ∨ jsTruthy msToLive = false ∨ hasCb = false ∨
      isNumber msToLive = false then
    (SimpleOut.thrown, st, db, salt, [])
  else
    match redisSelect st selErr with
    | (some e, st1, tr) => (SimpleOut.cb (some e), st1, db, salt, tr)
    | (none, st1, tr) =>
      match hashErr with
      | some e => (SimpleOut.cb (some e), st1, db, salt, tr)
      | none =>
        match msToLive with
        | JsVal.other _ =>
          -- dead branch: a non-number never passes the guard above
          (SimpleOut.thrown, st1, db, salt, tr)
        | JsVal.num ms =>
          let hashedToken := bcryptHash 10 salt token
          let origin := originUrl.getD ""
          let key := st1.tokenKey ++ uid
          let rcd : TokenRecord := ⟨hashedToken, origin, now + ms⟩
          let tr1 := tr ++ [Cmd.hmset key rcd]
          match hmsetErr with
          | some e => (SimpleOut.cb (some e), st1, db, salt + 1, tr1)
          | none =>
            let db1 := dbHmset db key rcd
            let sec := ceilDiv1000 ms
            let tr2 := tr1 ++ [Cmd.expire key sec]
            match expireErr with
            | some e => (SimpleOut.cb (some e), st1, db1, salt + 1, tr2)
            | none => (SimpleOut.cb none, st1, dbExpire db1 key sec, salt + 1, tr2)

/-- `RedisStore.prototype.invalidateUser` (redisstore.js lines 148-166). -/
def invalidateUser (st : RedisStore) (db : DB)
    (selErr delErr : Option Nat) (uid : String) (hasCb : Bool) :
    SimpleOut × RedisStore × DB × List Cmd :=
  if uid = "" ∨ hasCb = false then
    (SimpleOut.thrown, st, db, [])
  else
    match redisSelect st selErr with
    | (some e, st1, tr) => (SimpleOut.cb (some e), st1, db, tr)
    | (none, st1, tr) =>
      let key := st1.tokenKey ++ uid
      let tr1 := tr ++ [Cmd.del key]
      match delErr with
      | some e => (SimpleOut.cb (some e), st1, db, tr1)
      | none => (SimpleOut.cb none, st1, dbDel db key, tr1)

/-- `RedisStore.prototype.clear` (redisstore.js lines 173-196).  `delErr`
gives the outcome of the `del` issued for each matching key; `async.each`
issues every deletion and reports the first error (deletions whose own call
succeeded still take effect). -/
def clear (st : RedisStore) (db : DB)
    (selErr keysErr : Option Nat) (delErr : String → Option Nat)
    (hasCb : Bool) : SimpleOut × RedisStore × DB × List Cmd :=
  if hasCb = false then
    (SimpleOut.thrown, st, db, [])
  else
    match redisSelect st selErr with
    | (some e, st1, tr) => (SimpleOut.cb (some e), st1, db, tr)
    | (none, st1, tr) =>
      let pat := st1.tokenKey
      let tr1 := tr ++ [Cmd.keys pat]
      match keysErr with
      | some e => (SimpleOut.cb (some e), st1, db, tr1)
      | none =>
        let found := dbKeysMatching db pat
        if found.length > 0 then
          let tr2 := tr1 ++ found.map Cmd.del
          let db1 := found.foldl
            (fun d k => if (delErr k).isNone then dbDel d k else d) db
          match found.filterMap delErr with
          | [] => (SimpleOut.cb none, st1, db1, tr2)
          | e :: _ => (SimpleOut.cb (some e), st1, db1, tr2)
        else
          (SimpleOut.cb none, st1, db, tr1)

/-- Outcome of `length`: a synchronous throw, or `callback(error, count)`
(`count` is `none` on the error paths). -/
inductive LenOut where
  | thrown
  | cb (err : Option Nat) (count : Option Nat)
deriving DecidableEq, Repr

/-- `RedisStore.prototype.length` (redisstore.js lines 203-222). -/
def length (st : RedisStore) (db : DB)
    (selErr keysErr : Option Nat) (hasCb : Bool) :
    LenOut × RedisStore × List Cmd :=
  if hasCb = false then
    (LenOut.thrown, st, [])
  else
    match redisSelect st selErr with
    | (some e, st1, tr) => (LenOut.cb (some e) none, st1, tr)
    | (none, st1, tr) =>
      let pat := st1.tokenKey
      let tr1 := tr ++ [Cmd.keys pat]
      match keysErr with
      | some e => (LenOut.cb (some e) none, st1, tr1)
      | none => (LenOut.cb none (some (dbKeysMatching db pat).length), st1, tr1)

end RedisStore

/-! ### Lemmas about the database model -/

theorem dbLookup_dbHmset_self (db : DB) (k : String) (r : TokenRecord) :
    dbLookup (dbHmset db k r) k = some r := by
  induction db with
  | nil => simp [dbHmset, dbLookup, dbFind]
  | cons e rest ih =>
    by_cases h : e.key = k
    · simp [dbHmset, h, dbLookup, dbFind]
    · simp only [dbHmset, if_neg h]
      simpa [dbLookup, dbFind, h] using ih

theorem dbFind_dbExpire_dbHmset (db : DB) (k : String) (r : TokenRecord) (s : Int) :
    dbFind (dbExpire (dbHmset db k r) k s) k = some ⟨k, r, some s⟩ := by
  induction db with
  | nil => simp [dbHmset, dbExpire, dbFind]
  | cons e rest ih =>
    by_cases h : e.key = k
    · simp [dbHmset, h, dbExpire, dbFind]
    · simp [dbHmset, h, dbExpire, dbFind, ih]

theorem dbLookup_dbExpire_dbHmset (db : DB) (k : String) (r : TokenRecord) (s : Int) :
    dbLookup (dbExpire (dbHmset db k r) k s) k = some r := by
  simp [dbLookup, dbFind_dbExpire_dbHmset]

theorem dbKeysOf_dbExpire (db : DB) (k : String) (s : Int) :
    dbKeysOf (dbExpire db k s) = dbKeysOf db := by
  induction db with
  | nil => rfl
  | cons e rest ih =>
    by_cases h : e.key = k
    · simp [dbExpire, h, dbKeysOf]
    · simp only [dbExpire, if_neg h, dbKeysOf, List.map_cons]
      exact congrArg (fun l => e.key :: l) ih

theorem mem_dbKeysOf_dbHmset (db : DB) (k : String) (r : TokenRecord) (x : String)
    (hx : x ∈ dbKeysOf (dbHmset db k r)) : x ∈ dbKeysOf db ∨ x = k := by
  induction db with
  | nil =>
    simp [dbHmset, dbKeysOf] at hx
    exact Or.inr hx
  | cons e rest ih =>
    by_cases h : e.key = k
    · simp [dbHmset, h, dbKeysOf] at hx ⊢
      rcases hx with hx | hx
      · exact Or.inr hx
      · exact Or.inl (Or.inr hx)
    · simp [dbHmset, h, dbKeysOf] at hx ⊢
      rcases hx with hx | hx
      · exact Or.inl (Or.inl hx)
      · rcases ih (by simpa [dbKeysOf] using hx) with h2 | h2
        · exact Or.inl (Or.inr (by simpa [dbKeysOf] using h2))
        · exact Or.inr h2

theorem dbWF_dbHmset (db : DB) (k : String) (r : TokenRecord) (h : dbWF db) :
    dbWF (dbHmset db k r) := by
  induction db with
  | nil => simp [dbHmset, dbWF, dbKeysOf]
  | cons e rest ih =>
    simp only [dbWF, dbKeysOf, List.map_cons, List.nodup_cons] at h
    by_cases hk : e.key = k
    · simp only [dbHmset, if_pos hk, dbWF, dbKeysOf, List.map_cons, List.nodup_cons]
      exact ⟨by rw [← hk]; exact h.1, h.2⟩
    · simp only [dbHmset, if_neg hk, dbWF, dbKeysOf, List.map_cons, List.nodup_cons]
      refine ⟨?_, ih h.2⟩
      intro hmem
      rcases mem_dbKeysOf_dbHmset rest k r e.key (by simpa [dbKeysOf] using hmem) with h2 | h2
      · exact h.1 (by simpa [dbKeysOf] using h2)
      · exact hk h2

theorem dbWF_dbExpire (db : DB) (k : String) (s : Int) (h : dbWF db) :
    dbWF (dbExpire db k s) := by
  simpa [dbWF, dbKeysOf_dbExpire] using h

theorem countP_key_le_one (db : DB) (h : dbWF db) (k : String) :
    db.countP (fun e => e.key == k) ≤ 1 := by
  induction db with
  | nil => simp
  | cons e rest ih =>
    simp only [dbWF, dbKeysOf, List.map_cons, List.nodup_cons] at h
    by_cases hk : e.key = k
    · have hzero : rest.countP (fun e => e.key == k) = 0 := by
        rw [List.countP_eq_zero]
        intro a ha
        simp only [beq_iff_eq]
        intro hak
        exact h.1 (by
          rw [hk, ← hak]
          exact List.mem_map_of_mem (fun e => e.key) ha)
      simp [List.countP_cons, hk, hzero]
    · have h1 : rest.countP (fun e => e.key == k) ≤ 1 := ih h.2
      simp only [List.countP_cons, beq_iff_eq, hk]
      simpa using h1

theorem dbFind_eq_none_iff (db : DB) (k : String) :
    dbFind db k = none ↔ ∀ e ∈ db, e.key ≠ k := by
  induction db with
  | nil => simp [dbFind]
  | cons e rest ih =>
    by_cases h : e.key = k
    · simp [dbFind, h]
    · simp [dbFind, h, ih]

theorem dbLookup_eq_none_iff (db : DB) (k : String) :
    dbLookup db k = none ↔ ∀ e ∈ db, e.key ≠ k := by
  simp [dbLookup, dbFind_eq_none_iff]

theorem mem_foldl_dbDel (ks : List String) (db : DB) (e : DBEntry) :
    e ∈ ks.foldl (fun d k => dbDel d k) db ↔ e ∈ db ∧ e.key ∉ ks := by
  induction ks generalizing db with
  | nil => simp
  | cons k ks ih =>
    rw [List.foldl_cons, ih]
    simp only [dbDel, List.mem_filter, bne_iff_ne, ne_eq, List.mem_cons, not_or,
      decide_eq_true_eq]
    tauto

theorem mem_dbKeysMatching (db : DB) (pre x : String) :
    x ∈ dbKeysMatching db pre ↔ ∃ e ∈ db, e.key = x ∧ strHasPrefix pre x = true := by
  simp only [dbKeysMatching, List.mem_map, List.mem_filter]
  constructor
  · rintro ⟨e, ⟨he, hp⟩, hk⟩
    exact ⟨e, he, hk, hk ▸ hp⟩
  · rintro ⟨e, he, hk, hp⟩
    exact ⟨e, ⟨he, hk ▸ hp⟩, hk⟩

/-! ### Computation lemmas for the operations -/

/-- Store state after a successful partition selection (a no-op when the flag
was already set). -/
def setSelected (st : RedisStore) : RedisStore := { st with selected := true }

/-- Commands a successful `redisSelect` issues: none when already selected,
one `select` otherwise. -/
def selTrace (st : RedisStore) : List Cmd :=
  if st.selected then [] else [Cmd.select st.database]

theorem setSelected_tokenKey (st : RedisStore) :
    (setSelected st).tokenKey = st.tokenKey := rfl

theorem setSelected_selected (st : RedisStore) :
    (setSelected st).selected = true := rfl

theorem redisSelect_none (st : RedisStore) :
    RedisStore.redisSelect st none = (none, setSelected st, selTrace st) := by
  cases st with
  | mk d t sel =>
    cases sel <;> simp [RedisStore.redisSelect, setSelected, selTrace]

theorem redisSelect_some (st : RedisStore) (e : Nat) (h : st.selected = false) :
    RedisStore.redisSelect st (some e) = (some e, st, [Cmd.select st.database]) := by
  simp [RedisStore.redisSelect, h]

theorem redisSelect_selected (st : RedisStore) (se : Option Nat)
    (h : st.selected = true) : RedisStore.redisSelect st se = (none, st, []) := by
  simp [RedisStore.redisSelect, h]

theorem storeOrUpdate_ok (st : RedisStore) (db : DB) (now : Int) (salt : Nat)
    (token uid : String) (ms : Int) (o : Option String)
    (htok : token ≠ "") (huid : uid ≠ "") (hms : ms ≠ 0) :
    RedisStore.storeOrUpdate st db now salt none none none none token uid
        (JsVal.num ms) o true =
      (RedisStore.SimpleOut.cb none, setSelected st,
       dbExpire
         (dbHmset db (st.tokenKey ++ uid)
           ⟨bcryptHash 10 salt token, o.getD "", now + ms⟩)
         (st.tokenKey ++ uid) (RedisStore.ceilDiv1000 ms),
       salt + 1,
       selTrace st ++
         [Cmd.hmset (st.tokenKey ++ uid)
            ⟨bcryptHash 10 salt token, o.getD "", now + ms⟩,
          Cmd.expire (st.tokenKey ++ uid) (RedisStore.ceilDiv1000 ms)]) := by
  simp [RedisStore.storeOrUpdate, redisSelect_none, setSelected_tokenKey,
    jsTruthy, isNumber, htok, huid, hms]

theorem authenticate_ok (st : RedisStore) (db : DB) (now : Int)
    (token uid : String) (htok : token ≠ "") (huid : uid ≠ "") :
    RedisStore.authenticate st db now none none none token uid true =
      ((match dbLookup db (st.tokenKey ++ uid) with
        | none => RedisStore.AuthOut.cb none false none
        | some obj =>
          if now > obj.ttl then RedisStore.AuthOut.cb none false none
          else if bcryptCompare token obj.token then
            RedisStore.AuthOut.cb none true (some obj.origin)
          else RedisStore.AuthOut.cb none false none),
       setSelected st, selTrace st ++ [Cmd.hgetall (st.tokenKey ++ uid)]) := by
  have hguard : ¬(token = "" ∨ uid = "" ∨ (true : Bool) = false) := by
    simp [htok, huid]
  simp only [RedisStore.authenticate, if_neg hguard, redisSelect_none,
    setSelected_tokenKey]
  cases hdb : dbLookup db (st.tokenKey ++ uid) with
  | none => simp
  | some obj =>
    by_cases hn : now > obj.ttl
    · simp [hn]
    · by_cases hc : bcryptCompare token obj.token <;> simp [hn, hc]

/-! ### The src/unnamed/part_000 variant

The variant differs from src/lib/redisstore.js in its `storeOrUpdate`: it
derives the bcrypt cost from `self._options.redisstore.rounds` with the
configured minimum `bcryptMinRounds = 12`, rejecting smaller values.
Its constructor, however, executes `delete this._options.redisstore`
(part_000 line 39) before any call, so the later property read
`self._options.redisstore.rounds` (line 115) dereferences `undefined`. -/

/-- `var bcryptMinRounds = 12` (part_000 line 13). -/
def bcryptMinRounds : Int := 12

/-- State of a part_000 store: the common store state plus what is left of
`this._options.redisstore` (`none` once the constructor has deleted it; when
present, the inner value is the `rounds` property). -/
structure P0Store where
  base : RedisStore
  redisstoreOpts : Option (Option JsVal)
deriving DecidableEq, Repr

/-- The part_000 constructor (lines 27-42): identical state setup to
redisstore.js followed by `delete this._options.redisstore`, which discards
the `rounds` option before `storeOrUpdate` can read it. -/
def part000Construct (database : JsVal) (tokenkey : String)
    (rounds : Option JsVal) : Option P0Store :=
  match rounds, mkStore database tokenkey with
  | _, none => none
  | _, some st => some ⟨st, none⟩

/-- Outcome of the part_000 `storeOrUpdate`: the invalid-parameter throw, the
`TypeError` raised by reading `rounds` from the deleted options object, the
invalid-rounds configuration throw, or the callback. -/
inductive P0Out where
  | thrownInvalidParams
  | thrownTypeError
  | thrownInvalidRounds
  | cb (err : Option Nat)
deriving DecidableEq, Repr

/-- `storeOrUpdate` of the part_000 variant (lines 104-145).  The cost check
`typeof rounds != 'number' || rounds < bcryptMinRounds` runs only when
`opts = some roundsOpt`, i.e. when `this._options.redisstore` still exists;
after the real constructor it is `none` and the read throws.  (part_000
stores `origin: originUrl` without the `|| ""` default; `none` is persisted
as the client's stringification of `null`.) -/
def part000StoreOrUpdate (opts : Option (Option JsVal)) (st : RedisStore)
    (db : DB) (now : Int) (salt : Nat)
    (selErr hashErr hmsetErr expireErr : Option Nat)
    (token uid : String) (msToLive : JsVal) (originUrl : Option String)
    (hasCb : Bool) : P0Out × RedisStore × DB × Nat × List Cmd :=
  if token = "" ∨ uid = "" ∨ jsTruthy msToLive = false ∨ hasCb = false ∨
      isNumber msToLive = false then
    (P0Out.thrownInvalidParams, st, db, salt, [])
  else
    match RedisStore.redisSelect st selErr with
    | (some e, st1, tr) => (P0Out.cb (some e), st1, db, salt, tr)
    | (none, st1, tr) =>
      match opts with
      | none => (P0Out.thrownTypeError, st1, db, salt, tr)
      | some roundsOpt =>
        let rounds : JsVal :=
          match roundsOpt with
          | some v => if jsTruthy v then v else JsVal.num bcryptMinRounds
          | none => JsVal.num bcryptMinRounds
        if (match rounds with
            | JsVal.num n => decide (n < bcryptMinRounds)
            | JsVal.other _ => true) then
          (P0Out.thrownInvalidRounds, st1, db, salt, tr)
        else
          match rounds with
          | JsVal.other _ =>
            -- dead branch: a non-number was rejected by the check above
            (P0Out.thrownInvalidRounds, st1, db, salt, tr)
          | JsVal.num n =>
            match hashErr with
            | some e => (P0Out.cb (some e), st1, db, salt, tr)
            | none =>
              match msToLive with
              | JsVal.other _ => (P0Out.thrownInvalidParams, st1, db, salt, tr)
              | JsVal.num ms =>
                let hashedToken := bcryptHash n.toNat salt token
                let origin := originUrl.getD "null"
                let key := st1.tokenKey ++ uid
                let rcd : TokenRecord := ⟨hashedToken, origin, now + ms⟩
                let tr1 := tr ++ [Cmd.hmset key rcd]
                match hmsetErr with
                | some e => (P0Out.cb (some e), st1, db, salt + 1, tr1)
                | none =>
                  let db1 := dbHmset db key rcd
                  let sec := RedisStore.ceilDiv1000 ms
                  let tr2 := tr1 ++ [Cmd.expire key sec]
                  match expireErr with
                  | some e => (P0Out.cb (some e), st1, db1, salt + 1, tr2)
                  | none =>
                    (P0Out.cb none, st1, dbExpire db1 key sec, salt + 1, tr2)

/-! ### The claims -/

/-- Claim C1: for every valid input (non-empty token, non-empty uid, positive
numeric msToLive, any origin URL), a successful `storeOrUpdate` followed
before expiry by `authenticate` with the same token and uid yields
`(error = null, valid = true, origin = the stored origin)`. -/
theorem claim_C1_round_trip (st : RedisStore) (db : DB) (t0 t1 : Int)
    (salt : Nat) (token uid origin : String) (ms : Int)
    (htok : token ≠ "") (huid : uid ≠ "") (hms : 0 < ms)
    (ht1 : t1 ≤ t0 + ms) :
    (RedisStore.storeOrUpdate st db t0 salt none none none none token uid
        (JsVal.num ms) (some origin) true).1 = RedisStore.SimpleOut.cb none ∧
    (RedisStore.authenticate
        (RedisStore.storeOrUpdate st db t0 salt none none none none token uid
          (JsVal.num ms) (some origin) true).2.1
        (RedisStore.storeOrUpdate st db t0 salt none none none none token uid
          (JsVal.num ms) (some origin) true).2.2.1
        t1 none none none token uid true).1 =
      RedisStore.AuthOut.cb none true (some origin) := by
  have hms0 : ms ≠ 0 := by omega
  simp only [storeOrUpdate_ok st db t0 salt token uid ms (some origin) htok huid hms0]
  refine ⟨trivial, ?_⟩
  rw [authenticate_ok _ _ t1 token uid htok huid]
  simp only [setSelected_tokenKey, dbLookup_dbExpire_dbHmset]
  have hlive : ¬ t1 > t0 + ms := by omega
  simp [hlive, bcryptCompare_bcryptHash_self]

theorem claim_C1_round_trip_witness :
    (RedisStore.storeOrUpdate ⟨0, "pwdless:", false⟩ [] 100 0 none none none
        none "tok" "u" (JsVal.num 1000) (some "http://x") true).1 =
      RedisStore.SimpleOut.cb none ∧
    (RedisStore.authenticate
        (RedisStore.storeOrUpdate ⟨0, "pwdless:", false⟩ [] 100 0 none none
          none none "tok" "u" (JsVal.num 1000) (some "http://x") true).2.1
        (RedisStore.storeOrUpdate ⟨0, "pwdless:", false⟩ [] 100 0 none none
          none none "tok" "u" (JsVal.num 1000) (some "http://x") true).2.2.1
        600 none none none "tok" "u" true).1 =
      RedisStore.AuthOut.cb none true (some "http://x") :=
  claim_C1_round_trip ⟨0, "pwdless:", false⟩ [] 100 600 0 "tok" "u" "http://x"
    1000 (by decide) (by decide) (by decide) (by decide)

/-- Claim C3: with no record for the uid, and with a record whose `expiresAt`
lies strictly in the past, `authenticate` returns the identical result
`(null, false, null)`; a `valid = true` result arises only from an unexpired
record whose stored hash matches the plaintext, and then carries the stored
origin. -/
theorem claim_C3_expired_equals_absent (st : RedisStore) (db : DB) (now : Int)
    (token uid : String) (htok : token ≠ "") (huid : uid ≠ "") :
    (dbLookup db (st.tokenKey ++ uid) = none →
      (RedisStore.authenticate st db now none none none token uid true).1 =
        RedisStore.AuthOut.cb none false none) ∧
    (∀ rcd, dbLookup db (st.tokenKey ++ uid) = some rcd → now > rcd.ttl →
      (RedisStore.authenticate st db now none none none token uid true).1 =
        RedisStore.AuthOut.cb none false none) ∧
    (∀ rcd, dbLookup db (st.tokenKey ++ uid) = some rcd → ¬ now > rcd.ttl →
      (RedisStore.authenticate st db now none none none token uid true).1 =
        (if bcryptCompare token rcd.token then
          RedisStore.AuthOut.cb none true (some rcd.origin)
        else RedisStore.AuthOut.cb none false none)) ∧
    (∀ e v o,
      (RedisStore.authenticate st db now none none none token uid true).1 =
        RedisStore.AuthOut.cb e v o → v = true →
      e = none ∧ ∃ rcd, dbLookup db (st.tokenKey ++ uid) = some rcd ∧
        ¬ now > rcd.ttl ∧ bcryptCompare token rcd.token = true ∧
        o = some rcd.origin) := by
  have hauth := authenticate_ok st db now token uid htok huid
  refine ⟨?_, ?_, ?_, ?_⟩
  · intro hnone
    simp only [hauth]
    simp [hnone]
  · intro rcd hsome hexp
    simp only [hauth]
    simp [hsome, hexp]
  · intro rcd hsome hlive
    simp only [hauth]
    simp [hsome, hlive]
  · intro e v o hro hv
    subst hv
    simp only [hauth] at hro
    cases hsome : dbLookup db (st.tokenKey ++ uid) with
    | none => simp [hsome] at hro
    | some rcd =>
      by_cases hexp : now > rcd.ttl
      · simp [hsome, hexp] at hro
      · by_cases hcmp : bcryptCompare token rcd.token
        · simp only [hsome, hexp, if_false, hcmp, if_true] at hro
          simp at hro
          exact ⟨hro.1.symm, rcd, rfl, hexp, hcmp, hro.2.symm⟩
        · simp [hsome, hexp, hcmp] at hro

theorem claim_C3_expired_equals_absent_witness :
    (dbLookup [] ("pwdless:" ++ "u") = none →
      (RedisStore.authenticate ⟨0, "pwdless:", false⟩ [] 50 none none none
        "tok" "u" true).1 = RedisStore.AuthOut.cb none false none) ∧
    (∀ rcd, dbLookup [] ("pwdless:" ++ "u") = some rcd → 50 > rcd.ttl →
      (RedisStore.authenticate ⟨0, "pwdless:", false⟩ [] 50 none none none
        "tok" "u" true).1 = RedisStore.AuthOut.cb none false none) ∧
    (∀ rcd, dbLookup [] ("pwdless:" ++ "u") = some rcd → ¬ 50 > rcd.ttl →
      (RedisStore.authenticate ⟨0, "pwdless:", false⟩ [] 50 none none none
        "tok" "u" true).1 =
        (if bcryptCompare "tok" rcd.token then
          RedisStore.AuthOut.cb none true (some rcd.origin)
        else RedisStore.AuthOut.cb none false none)) ∧
    (∀ e v o,
      (RedisStore.authenticate ⟨0, "pwdless:", false⟩ [] 50 none none none
        "tok" "u" true).1 = RedisStore.AuthOut.cb e v o → v = true →
      e = none ∧ ∃ rcd, dbLookup [] ("pwdless:" ++ "u") = some rcd ∧
        ¬ (50 : Int) > rcd.ttl ∧ bcryptCompare "tok" rcd.token = true ∧
        o = some rcd.origin) :=
  claim_C3_expired_equals_absent ⟨0, "pwdless:", false⟩ [] 50 "tok" "u"
    (by decide) (by decide)

/-- Claim C6: two successive `storeOrUpdate` calls with the identical
plaintext token for the same uid persist two different hashed tokens, and a
persisted hashed token never equals the plaintext that produced it (bcrypt is
modelled with a fresh random salt per call, the interface the spec assumes
of it). -/
theorem claim_C6_salted_hashes (st : RedisStore) (db : DB) (t0 t1 : Int)
    (salt : Nat) (token uid : String) (o1 o2 : Option String) (ms1 ms2 : Int)
    (htok : token ≠ "") (huid : uid ≠ "") (hms1 : ms1 ≠ 0) (hms2 : ms2 ≠ 0) :
    dbLookup (RedisStore.storeOrUpdate st db t0 salt none none none none token
        uid (JsVal.num ms1) o1 true).2.2.1 (st.tokenKey ++ uid) =
      some ⟨bcryptHash 10 salt token, o1.getD "", t0 + ms1⟩ ∧
    dbLookup (RedisStore.storeOrUpdate
        (RedisStore.storeOrUpdate st db t0 salt none none none none token uid
          (JsVal.num ms1) o1 true).2.1
        (RedisStore.storeOrUpdate st db t0 salt none none none none token uid
          (JsVal.num ms1) o1 true).2.2.1
        t1
        (RedisStore.storeOrUpdate st db t0 salt none none none none token uid
          (JsVal.num ms1) o1 true).2.2.2.1
        none none none none token uid (JsVal.num ms2) o2 true).2.2.1
        (st.tokenKey ++ uid) =
      some ⟨bcryptHash 10 (salt + 1) token, o2.getD "", t1 + ms2⟩ ∧
    bcryptHash 10 salt token ≠ bcryptHash 10 (salt + 1) token ∧
    bcryptHash 10 salt token ≠ token ∧
    bcryptHash 10 (salt + 1) token ≠ token := by
  simp only [storeOrUpdate_ok st db t0 salt token uid ms1 o1 htok huid hms1]
  simp only [storeOrUpdate_ok (setSelected st) _ t1 (salt + 1) token uid ms2 o2
    htok huid hms2]
  simp only [setSelected_tokenKey]
  refine ⟨dbLookup_dbExpire_dbHmset _ _ _ _, dbLookup_dbExpire_dbHmset _ _ _ _,
    ?_, bcryptHash_ne_plain 10 salt token, bcryptHash_ne_plain 10 (salt + 1) token⟩
  intro h
  have := bcryptHash_salt_injective 10 salt (salt + 1) token h
  omega

theorem claim_C6_salted_hashes_witness :
    dbLookup (RedisStore.storeOrUpdate ⟨0, "pwdless:", false⟩ [] 100 0 none
        none none none "tok" "u" (JsVal.num 1000) none true).2.2.1
        ("pwdless:" ++ "u") =
      some ⟨bcryptHash 10 0 "tok", "", 1100⟩ ∧
    dbLookup (RedisStore.storeOrUpdate
        (RedisStore.storeOrUpdate ⟨0, "pwdless:", false⟩ [] 100 0 none none
          none none "tok" "u" (JsVal.num 1000) none true).2.1
        (RedisStore.storeOrUpdate ⟨0, "pwdless:", false⟩ [] 100 0 none none
          none none "tok" "u" (JsVal.num 1000) none true).2.2.1
        200
        (RedisStore.storeOrUpdate ⟨0, "pwdless:", false⟩ [] 100 0 none none
          none none "tok" "u" (JsVal.num 1000) none true).2.2.2.1
        none none none none "tok" "u" (JsVal.num 1000) none true).2.2.1
        ("pwdless:" ++ "u") =
      some ⟨bcryptHash 10 1 "tok", "", 1200⟩ ∧
    bcryptHash 10 0 "tok" ≠ bcryptHash 10 1 "tok" ∧
    bcryptHash 10 0 "tok" ≠ "tok" ∧
    bcryptHash 10 1 "tok" ≠ "tok" :=
  claim_C6_salted_hashes ⟨0, "pwdless:", false⟩ [] 100 200 0 "tok" "u" none
    none 1000 1000 (by decide) (by decide) (by decide) (by decide)

/-- Claim C10 (implicit): the synchronous guard of `storeOrUpdate` does not
reject a negative numeric msToLive — the call succeeds and writes a record
whose `expiresAt = now + msToLive` already lies in the past. -/
theorem claim_C10_negative_msToLive (st : RedisStore) (db : DB) (now : Int)
    (salt : Nat) (token uid : String) (o : Option String) (ms : Int)
    (htok : token ≠ "") (huid : uid ≠ "") (hms : ms < 0) :
    (RedisStore.storeOrUpdate st db now salt none none none none token uid
        (JsVal.num ms) o true).1 = RedisStore.SimpleOut.cb none ∧
    dbLookup (RedisStore.storeOrUpdate st db now salt none none none none
        token uid (JsVal.num ms) o true).2.2.1 (st.tokenKey ++ uid) =
      some ⟨bcryptHash 10 salt token, o.getD "", now + ms⟩ ∧
    now + ms < now := by
  have hms0 : ms ≠ 0 := by omega
  simp only [storeOrUpdate_ok st db now salt token uid ms o htok huid hms0]
  exact ⟨trivial, dbLookup_dbExpire_dbHmset _ _ _ _, by omega⟩

theorem claim_C10_negative_msToLive_witness :
    (RedisStore.storeOrUpdate ⟨0, "pwdless:", false⟩ [] 100 0 none none none
        none "tok" "u" (JsVal.num (-50)) none true).1 =
      RedisStore.SimpleOut.cb none ∧
    dbLookup (RedisStore.storeOrUpdate ⟨0, "pwdless:", false⟩ [] 100 0 none
        none none none "tok" "u" (JsVal.num (-50)) none true).2.2.1
        ("pwdless:" ++ "u") =
      some ⟨bcryptHash 10 0 "tok", "", 100 + (-50)⟩ ∧
    (100 : Int) + (-50) < 100 :=
  claim_C10_negative_msToLive ⟨0, "pwdless:", false⟩ [] 100 0 "tok" "u" none
    (-50) (by decide) (by decide) (by decide)

theorem setSelected_idem (st : RedisStore) :
    setSelected (setSelected st) = setSelected st := rfl

theorem storeOrUpdate_hmsetErr (st : RedisStore) (db : DB) (now : Int)
    (salt : Nat) (token uid : String) (ms : Int) (o : Option String) (e : Nat)
    (htok : token ≠ "") (huid : uid ≠ "") (hms : ms ≠ 0) :
    RedisStore.storeOrUpdate st db now salt none none (some e) none token uid
        (JsVal.num ms) o true =
      (RedisStore.SimpleOut.cb (some e), setSelected st, db, salt + 1,
       selTrace st ++
         [Cmd.hmset (st.tokenKey ++ uid)
            ⟨bcryptHash 10 salt token, o.getD "", now + ms⟩]) := by
  simp [RedisStore.storeOrUpdate, redisSelect_none, setSelected_tokenKey,
    jsTruthy, isNumber, htok, huid, hms]

theorem storeOrUpdate_expireErr (st : RedisStore) (db : DB) (now : Int)
    (salt : Nat) (token uid : String) (ms : Int) (o : Option String) (e : Nat)
    (htok : token ≠ "") (huid : uid ≠ "") (hms : ms ≠ 0) :
    RedisStore.storeOrUpdate st db now salt none none none (some e) token uid
        (JsVal.num ms) o true =
      (RedisStore.SimpleOut.cb (some e), setSelected st,
       dbHmset db (st.tokenKey ++ uid)
         ⟨bcryptHash 10 salt token, o.getD "", now + ms⟩,
       salt + 1,
       selTrace st ++
         [Cmd.hmset (st.tokenKey ++ uid)
            ⟨bcryptHash 10 salt token, o.getD "", now + ms⟩,
          Cmd.expire (st.tokenKey ++ uid) (RedisStore.ceilDiv1000 ms)]) := by
  simp [RedisStore.storeOrUpdate, redisSelect_none, setSelected_tokenKey,
    jsTruthy, isNumber, htok, huid, hms]

/-- Claim C2: a second `storeOrUpdate` for the same uid overwrites the prior
record instead of appending one: afterwards the old token no longer
authenticates, the new one does, and every uid still has at most one
record. -/
theorem claim_C2_single_token_per_user (st : RedisStore) (db : DB)
    (t0 t1 t2 : Int) (salt : Nat) (tokenA tokenB uid : String)
    (o1 o2 : Option String) (ms1 ms2 : Int)
    (hA : tokenA ≠ "") (hB : tokenB ≠ "") (huid : uid ≠ "")
    (hAB : tokenA ≠ tokenB) (hms1 : ms1 ≠ 0) (hms2 : ms2 ≠ 0)
    (ht2 : t2 ≤ t1 + ms2) :
    (RedisStore.authenticate
        (RedisStore.storeOrUpdate
          (RedisStore.storeOrUpdate st db t0 salt none none none none tokenA
            uid (JsVal.num ms1) o1 true).2.1
          (RedisStore.storeOrUpdate st db t0 salt none none none none tokenA
            uid (JsVal.num ms1) o1 true).2.2.1
          t1
          (RedisStore.storeOrUpdate st db t0 salt none none none none tokenA
            uid (JsVal.num ms1) o1 true).2.2.2.1
          none none none none tokenB uid (JsVal.num ms2) o2 true).2.1
        (RedisStore.storeOrUpdate
          (RedisStore.storeOrUpdate st db t0 salt none none none none tokenA
            uid (JsVal.num ms1) o1 true).2.1
          (RedisStore.storeOrUpdate st db t0 salt none none none none tokenA
            uid (JsVal.num ms1) o1 true).2.2.1
          t1
          (RedisStore.storeOrUpdate st db t0 salt none none none none tokenA
            uid (JsVal.num ms1) o1 true).2.2.2.1
          none none none none tokenB uid (JsVal.num ms2) o2 true).2.2.1
        t2 none none none tokenA uid true).1 =
      RedisStore.AuthOut.cb none false none ∧
    (RedisStore.authenticate
        (RedisStore.storeOrUpdate
          (RedisStore.storeOrUpdate st db t0 salt none none none none tokenA
            uid (JsVal.num ms1) o1 true).2.1
          (RedisStore.storeOrUpdate st db t0 salt none none none none tokenA
            uid (JsVal.num ms1) o1 true).2.2.1
          t1
          (RedisStore.storeOrUpdate st db t0 salt none none none none tokenA
            uid (JsVal.num ms1) o1 true).2.2.2.1
          none none none none tokenB uid (JsVal.num ms2) o2 true).2.1
        (RedisStore.storeOrUpdate
          (RedisStore.storeOrUpdate st db t0 salt none none none none tokenA
            uid (JsVal.num ms1) o1 true).2.1
          (RedisStore.storeOrUpdate st db t0 salt none none none none tokenA
            uid (JsVal.num ms1) o1 true).2.2.1
          t1
          (RedisStore.storeOrUpdate st db t0 salt none none none none tokenA
            uid (JsVal.num ms1) o1 true).2.2.2.1
          none none none none tokenB uid (JsVal.num ms2) o2 true).2.2.1
        t2 none none none tokenB uid true).1 =
      RedisStore.AuthOut.cb none true (some (o2.getD "")) ∧
    (dbWF db → ∀ k,
      (RedisStore.storeOrUpdate
          (RedisStore.storeOrUpdate st db t0 salt none none none none tokenA
            uid (JsVal.num ms1) o1 true).2.1
          (RedisStore.storeOrUpdate st db t0 salt none none none none tokenA
            uid (JsVal.num ms1) o1 true).2.2.1
          t1
          (RedisStore.storeOrUpdate st db t0 salt none none none none tokenA
            uid (JsVal.num ms1) o1 true).2.2.2.1
          none none none none tokenB uid (JsVal.num ms2) o2 true).2.2.1.countP
        (fun e => e.key == k) ≤ 1) := by
  simp only [storeOrUpdate_ok st db t0 salt tokenA uid ms1 o1 hA huid hms1]
  simp only [storeOrUpdate_ok (setSelected st) _ t1 (salt + 1) tokenB uid ms2
    o2 hB huid hms2]
  simp only [setSelected_tokenKey, setSelected_idem]
  have hlive : ¬ t2 > t1 + ms2 := by omega
  refine ⟨?_, ?_, ?_⟩
  · rw [authenticate_ok _ _ t2 tokenA uid hA huid]
    simp only [setSelected_tokenKey, dbLookup_dbExpire_dbHmset]
    simp [hlive, bcryptCompare_bcryptHash_ne 10 (salt + 1) tokenA tokenB hAB]
  · rw [authenticate_ok _ _ t2 tokenB uid hB huid]
    simp only [setSelected_tokenKey, dbLookup_dbExpire_dbHmset]
    simp [hlive, bcryptCompare_bcryptHash_self]
  · intro hwf k
    exact countP_key_le_one _
      (dbWF_dbExpire _ _ _ (dbWF_dbHmset _ _ _
        (dbWF_dbExpire _ _ _ (dbWF_dbHmset _ _ _ hwf)))) k

theorem claim_C2_single_token_per_user_witness :
    (RedisStore.authenticate
        (RedisStore.storeOrUpdate
          (RedisStore.storeOrUpdate ⟨0, "pwdless:", false⟩ [] 100 0 none none
            none none "a" "u" (JsVal.num 1000) none true).2.1
          (RedisStore.storeOrUpdate ⟨0, "pwdless:", false⟩ [] 100 0 none none
            none none "a" "u" (JsVal.num 1000) none true).2.2.1
          200
          (RedisStore.storeOrUpdate ⟨0, "pwdless:", false⟩ [] 100 0 none none
            none none "a" "u" (JsVal.num 1000) none true).2.2.2.1
          none none none none "b" "u" (JsVal.num 1000) (some "http://x")
          true).2.1
        (RedisStore.storeOrUpdate
          (RedisStore.storeOrUpdate ⟨0, "pwdless:", false⟩ [] 100 0 none none
            none none "a" "u" (JsVal.num 1000) none true).2.1
          (RedisStore.storeOrUpdate ⟨0, "pwdless:", false⟩ [] 100 0 none none
            none none "a" "u" (JsVal.num 1000) none true).2.2.1
          200
          (RedisStore.storeOrUpdate ⟨0, "pwdless:", false⟩ [] 100 0 none none
            none none "a" "u" (JsVal.num 1000) none true).2.2.2.1
          none none none none "b" "u" (JsVal.num 1000) (some "http://x")
          true).2.2.1
        300 none none none "a" "u" true).1 =
      RedisStore.AuthOut.cb none false none ∧
    (RedisStore.authenticate
        (RedisStore.storeOrUpdate
          (RedisStore.storeOrUpdate ⟨0, "pwdless:", false⟩ [] 100 0 none none
            none none "a" "u" (JsVal.num 1000) none true).2.1
          (RedisStore.storeOrUpdate ⟨0, "pwdless:", false⟩ [] 100 0 none none
            none none "a" "u" (JsVal.num 1000) none true).2.2.1
          200
          (RedisStore.storeOrUpdate ⟨0, "pwdless:", false⟩ [] 100 0 none none
            none none "a" "u" (JsVal.num 1000) none true).2.2.2.1
          none none none none "b" "u" (JsVal.num 1000) (some "http://x")
          true).2.1
        (RedisStore.storeOrUpdate
          (RedisStore.storeOrUpdate ⟨0, "pwdless:", false⟩ [] 100 0 none none
            none none "a" "u" (JsVal.num 1000) none true).2.1
          (RedisStore.storeOrUpdate ⟨0, "pwdless:", false⟩ [] 100 0 none none
            none none "a" "u" (JsVal.num 1000) none true).2.2.1
          200
          (RedisStore.storeOrUpdate ⟨0, "pwdless:", false⟩ [] 100 0 none none
            none none "a" "u" (JsVal.num 1000) none true).2.2.2.1
          none none none none "b" "u" (JsVal.num 1000) (some "http://x")
          true).2.2.1
        300 none none none "b" "u" true).1 =
      RedisStore.AuthOut.cb none true (some "http://x") ∧
    (dbWF [] → ∀ k,
      (RedisStore.storeOrUpdate
          (RedisStore.storeOrUpdate ⟨0, "pwdless:", false⟩ [] 100 0 none none
            none none "a" "u" (JsVal.num 1000) none true).2.1
          (RedisStore.storeOrUpdate ⟨0, "pwdless:", false⟩ [] 100 0 none none
            none none "a" "u" (JsVal.num 1000) none true).2.2.1
          200
          (RedisStore.storeOrUpdate ⟨0, "pwdless:", false⟩ [] 100 0 none none
            none none "a" "u" (JsVal.num 1000) none true).2.2.2.1
          none none none none "b" "u" (JsVal.num 1000) (some "http://x")
          true).2.2.1.countP (fun e => e.key == k) ≤ 1) :=
  claim_C2_single_token_per_user ⟨0, "pwdless:", false⟩ [] 100 200 300 0 "a"
    "b" "u" none (some "http://x") 1000 1000 (by decide) (by decide)
    (by decide) (by decide) (by decide) (by decide) (by decide)

/-- Claim C4: `storeOrUpdate` writes the full record (hashed token, origin
defaulting to the empty string, `expiresAt = now + msToLive`) as one
field-set command, and only after a successful write does it set the
store-level expiry of `ceil(msToLive / 1000)` seconds on the key; a write
failure surfaces the error and issues no expiry command, and an expiry
failure after a successful write surfaces the error while the record
persists. -/
theorem claim_C4_write_then_expire (st : RedisStore) (db : DB) (now : Int)
    (salt : Nat) (token uid : String) (o : Option String) (ms : Int)
    (htok : token ≠ "") (huid : uid ≠ "") (hms : ms ≠ 0) :
    ((RedisStore.storeOrUpdate st db now salt none none none none token uid
        (JsVal.num ms) o true).1 = RedisStore.SimpleOut.cb none ∧
     dbFind (RedisStore.storeOrUpdate st db now salt none none none none token
        uid (JsVal.num ms) o true).2.2.1 (st.tokenKey ++ uid) =
       some ⟨st.tokenKey ++ uid,
             ⟨bcryptHash 10 salt token, o.getD "", now + ms⟩,
             some (RedisStore.ceilDiv1000 ms)⟩ ∧
     (RedisStore.storeOrUpdate st db now salt none none none none token uid
        (JsVal.num ms) o true).2.2.2.2 =
       selTrace st ++
         [Cmd.hmset (st.tokenKey ++ uid)
            ⟨bcryptHash 10 salt token, o.getD "", now + ms⟩,
          Cmd.expire (st.tokenKey ++ uid) (RedisStore.ceilDiv1000 ms)]) ∧
    (∀ e,
      (RedisStore.storeOrUpdate st db now salt none none (some e) none token
        uid (JsVal.num ms) o true).1 = RedisStore.SimpleOut.cb (some e) ∧
      (RedisStore.storeOrUpdate st db now salt none none (some e) none token
        uid (JsVal.num ms) o true).2.2.1 = db ∧
      (∀ k s2, Cmd.expire k s2 ∉
        (RedisStore.storeOrUpdate st db now salt none none (some e) none token
          uid (JsVal.num ms) o true).2.2.2.2)) ∧
    (∀ e,
      (RedisStore.storeOrUpdate st db now salt none none none (some e) token
        uid (JsVal.num ms) o true).1 = RedisStore.SimpleOut.cb (some e) ∧
      dbLookup (RedisStore.storeOrUpdate st db now salt none none none
        (some e) token uid (JsVal.num ms) o true).2.2.1 (st.tokenKey ++ uid) =
        some ⟨bcryptHash 10 salt token, o.getD "", now + ms⟩ ∧
      (RedisStore.storeOrUpdate st db now salt none none none (some e) token
        uid (JsVal.num ms) o true).2.2.2.2 =
        selTrace st ++
          [Cmd.hmset (st.tokenKey ++ uid)
             ⟨bcryptHash 10 salt token, o.getD "", now + ms⟩,
           Cmd.expire (st.tokenKey ++ uid) (RedisStore.ceilDiv1000 ms)]) := by
  refine ⟨?_, ?_, ?_⟩
  · rw [storeOrUpdate_ok st db now salt token uid ms o htok huid hms]
    exact ⟨rfl, dbFind_dbExpire_dbHmset _ _ _ _, rfl⟩
  · intro e
    rw [storeOrUpdate_hmsetErr st db now salt token uid ms o e htok huid hms]
    refine ⟨rfl, rfl, ?_⟩
    intro k s2
    by_cases hsel : st.selected <;> simp [selTrace, hsel]
  · intro e
    rw [storeOrUpdate_expireErr st db now salt token uid ms o e htok huid hms]
    exact ⟨rfl, dbLookup_dbHmset_self _ _ _, rfl⟩

theorem claim_C4_write_then_expire_witness :
    ((RedisStore.storeOrUpdate ⟨0, "pwdless:", false⟩ [] 100 0 none none none
        none "tok" "u" (JsVal.num 1500) none true).1 =
        RedisStore.SimpleOut.cb none ∧
     dbFind (RedisStore.storeOrUpdate ⟨0, "pwdless:", false⟩ [] 100 0 none
        none none none "tok" "u" (JsVal.num 1500) none true).2.2.1
        ("pwdless:" ++ "u") =
       some ⟨"pwdless:" ++ "u", ⟨bcryptHash 10 0 "tok", "", 100 + 1500⟩,
             some (RedisStore.ceilDiv1000 1500)⟩ ∧
     (RedisStore.storeOrUpdate ⟨0, "pwdless:", false⟩ [] 100 0 none none none
        none "tok" "u" (JsVal.num 1500) none true).2.2.2.2 =
       selTrace ⟨0, "pwdless:", false⟩ ++
         [Cmd.hmset ("pwdless:" ++ "u") ⟨bcryptHash 10 0 "tok", "", 100 + 1500⟩,
          Cmd.expire ("pwdless:" ++ "u") (RedisStore.ceilDiv1000 1500)]) ∧
    (∀ e,
      (RedisStore.storeOrUpdate ⟨0, "pwdless:", false⟩ [] 100 0 none none
        (some e) none "tok" "u" (JsVal.num 1500) none true).1 =
        RedisStore.SimpleOut.cb (some e) ∧
      (RedisStore.storeOrUpdate ⟨0, "pwdless:", false⟩ [] 100 0 none none
        (some e) none "tok" "u" (JsVal.num 1500) none true).2.2.1 = [] ∧
      (∀ k s2, Cmd.expire k s2 ∉
        (RedisStore.storeOrUpdate ⟨0, "pwdless:", false⟩ [] 100 0 none none
          (some e) none "tok" "u" (JsVal.num 1500) none true).2.2.2.2)) ∧
    (∀ e,
      (RedisStore.storeOrUpdate ⟨0, "pwdless:", false⟩ [] 100 0 none none none
        (some e) "tok" "u" (JsVal.num 1500) none true).1 =
        RedisStore.SimpleOut.cb (some e) ∧
      dbLookup (RedisStore.storeOrUpdate ⟨0, "pwdless:", false⟩ [] 100 0 none
        none none (some e) "tok" "u" (JsVal.num 1500) none true).2.2.1
        ("pwdless:" ++ "u") =
        some ⟨bcryptHash 10 0 "tok", "", 100 + 1500⟩ ∧
      (RedisStore.storeOrUpdate ⟨0, "pwdless:", false⟩ [] 100 0 none none none
        (some e) "tok" "u" (JsVal.num 1500) none true).2.2.2.2 =
        selTrace ⟨0, "pwdless:", false⟩ ++
          [Cmd.hmset ("pwdless:" ++ "u") ⟨bcryptHash 10 0 "tok", "", 100 + 1500⟩,
           Cmd.expire ("pwdless:" ++ "u") (RedisStore.ceilDiv1000 1500)]) :=
  claim_C4_write_then_expire ⟨0, "pwdless:", false⟩ [] 100 0 "tok" "u" none
    1500 (by decide) (by decide) (by decide)

/-- Claim C5: in the part_000 variant the configured-minimum check exists
(third conjunct: a sub-minimum `rounds` is rejected when the options object
is still present), but the constructor deletes `options.redisstore`, so
`storeOrUpdate` throws a TypeError while reading `rounds` on every call —
the configured cost never reaches the hash. -/
theorem claim_C5_part000_rounds_read_throws :
    part000Construct (JsVal.num 15) "" (some (JsVal.num 15)) =
      some ⟨⟨15, "pwdless:", false⟩, none⟩ ∧
    (part000StoreOrUpdate none ⟨15, "pwdless:", false⟩ [] 1000 0 none none
        none none "tok" "u" (JsVal.num 60000) none true).1 =
      P0Out.thrownTypeError ∧
    (part000StoreOrUpdate (some (some (JsVal.num 5))) ⟨15, "pwdless:", false⟩
        [] 1000 0 none none none none "tok" "u" (JsVal.num 60000) none
        true).1 = P0Out.thrownInvalidRounds := by
  refine ⟨by decide, by decide, by decide⟩

/-- Claim C7 counterexample: a falsy non-numeric database index — concretely
`NaN` (also `""`, `null` or `false`), modelled by `JsVal.other false` — is
non-numeric by the code's own `isNumber`, yet construction raises no error
and silently selects database 0. -/
theorem claim_C7_construction_counterexample :
    isNumber (JsVal.other false) = false ∧
    mkStore (JsVal.other false) "" = some ⟨0, "pwdless:", false⟩ := by
  decide

/-- Claim C7 (amended): every missing/empty required parameter of
`authenticate`, `storeOrUpdate`, `invalidateUser`, `clear` and `length`, and
every non-numeric `msToLive`, raises synchronously — no command is issued
and no state changes; at construction a truthy non-numeric database index
raises before any connection attempt (a falsy non-numeric one, e.g. `NaN`,
is treated as absent and defaults to database 0). -/
theorem claim_C7_amended_guards :
    (∀ (st : RedisStore) (db : DB) (now : Int) (se he ce : Option Nat)
       (token uid : String) (hasCb : Bool),
       token = "" ∨ uid = "" ∨ hasCb = false →
       RedisStore.authenticate st db now se he ce token uid hasCb =
         (RedisStore.AuthOut.thrown, st, [])) ∧
    (∀ (st : RedisStore) (db : DB) (now : Int) (salt : Nat)
       (se hh hm he : Option Nat) (token uid : String) (msToLive : JsVal)
       (o : Option String) (hasCb : Bool),
       token = "" ∨ uid = "" ∨ jsTruthy msToLive = false ∨ hasCb = false ∨
         isNumber msToLive = false →
       RedisStore.storeOrUpdate st db now salt se hh hm he token uid msToLive
         o hasCb = (RedisStore.SimpleOut.thrown, st, db, salt, [])) ∧
    (∀ (st : RedisStore) (db : DB) (se de : Option Nat) (uid : String)
       (hasCb : Bool), uid = "" ∨ hasCb = false →
       RedisStore.invalidateUser st db se de uid hasCb =
         (RedisStore.SimpleOut.thrown, st, db, [])) ∧
    (∀ (st : RedisStore) (db : DB) (se ke : Option Nat)
       (de : String → Option Nat),
       RedisStore.clear st db se ke de false =
         (RedisStore.SimpleOut.thrown, st, db, [])) ∧
    (∀ (st : RedisStore) (db : DB) (se ke : Option Nat),
       RedisStore.length st db se ke false =
         (RedisStore.LenOut.thrown, st, [])) ∧
    (∀ (v : JsVal) (tk : String), jsTruthy v = true → isNumber v = false →
       mkStore v tk = none) := by
  refine ⟨?_, ?_, ?_, ?_, ?_, ?_⟩
  · intro st db now se he ce token uid hasCb h
    simp only [RedisStore.authenticate]
    rw [if_pos h]
  · intro st db now salt se hh hm he token uid msToLive o hasCb h
    simp only [RedisStore.storeOrUpdate]
    rw [if_pos h]
  · intro st db se de uid hasCb h
    simp only [RedisStore.invalidateUser]
    rw [if_pos h]
  · intro st db se ke de
    simp [RedisStore.clear]
  · intro st db se ke
    simp [RedisStore.length]
  · intro v tk h1 h2
    simp only [mkStore]
    rw [if_pos ⟨h1, h2⟩]

theorem claim_C7_amended_guards_witness :
    RedisStore.authenticate ⟨0, "pwdless:", false⟩ [] 0 none none none "" "u"
      true = (RedisStore.AuthOut.thrown, ⟨0, "pwdless:", false⟩, []) ∧
    RedisStore.storeOrUpdate ⟨0, "pwdless:", false⟩ [] 0 0 none none none none
      "tok" "u" (JsVal.other true) none true =
      (RedisStore.SimpleOut.thrown, ⟨0, "pwdless:", false⟩, [], 0, []) ∧
    RedisStore.invalidateUser ⟨0, "pwdless:", false⟩ [] none none "" true =
      (RedisStore.SimpleOut.thrown, ⟨0, "pwdless:", false⟩, [], []) ∧
    RedisStore.clear ⟨0, "pwdless:", false⟩ [] none none (fun _ => none)
      false = (RedisStore.SimpleOut.thrown, ⟨0, "pwdless:", false⟩, [], []) ∧
    RedisStore.length ⟨0, "pwdless:", false⟩ [] none none false =
      (RedisStore.LenOut.thrown, ⟨0, "pwdless:", false⟩, []) ∧
    mkStore (JsVal.other true) "" = none :=
  ⟨claim_C7_amended_guards.1 ⟨0, "pwdless:", false⟩ [] 0 none none none ""
      "u" true (Or.inl rfl),
   claim_C7_amended_guards.2.1 ⟨0, "pwdless:", false⟩ [] 0 0 none none none
      none "tok" "u" (JsVal.other true) none true
      (Or.inr (Or.inr (Or.inr (Or.inr rfl)))),
   claim_C7_amended_guards.2.2.1 ⟨0, "pwdless:", false⟩ [] none none "" true
      (Or.inl rfl),
   claim_C7_amended_guards.2.2.2.1 ⟨0, "pwdless:", false⟩ [] none none
      (fun _ => none),
   claim_C7_amended_guards.2.2.2.2.1 ⟨0, "pwdless:", false⟩ [] none none,
   claim_C7_amended_guards.2.2.2.2.2 (JsVal.other true) "" rfl rfl⟩

theorem setSelected_eq_self (st : RedisStore) (h : st.selected = true) :
    setSelected st = st := by
  cases st
  simp_all [setSelected]

theorem selTrace_selected (st : RedisStore) (h : st.selected = true) :
    selTrace st = [] := by
  simp [selTrace, h]

theorem selTrace_unselected (st : RedisStore) (h : st.selected = false) :
    selTrace st = [Cmd.select st.database] := by
  simp [selTrace, h]

theorem redisSelect_none_or_selected (st : RedisStore) (se : Option Nat)
    (h : se = none ∨ st.selected = true) :
    RedisStore.redisSelect st se = (none, setSelected st, selTrace st) := by
  rcases h with rfl | h
  · exact redisSelect_none st
  · rw [redisSelect_selected st se h, setSelected_eq_self st h,
      selTrace_selected st h]

theorem authenticate_select_shape (st : RedisStore) (db : DB) (now : Int)
    (se he ce : Option Nat) (token uid : String)
    (htok : token ≠ "") (huid : uid ≠ "")
    (hse : se = none ∨ st.selected = true) :
    (RedisStore.authenticate st db now se he ce token uid true).2.1 =
      setSelected st ∧
    ∃ tail, (RedisStore.authenticate st db now se he ce token uid true).2.2 =
        selTrace st ++ tail ∧ ∀ n, Cmd.select n ∉ tail := by
  have hshape : ∃ out, RedisStore.authenticate st db now se he ce token uid
      true = (out, setSelected st,
        selTrace st ++ [Cmd.hgetall (st.tokenKey ++ uid)]) := by
    have hguard : ¬(token = "" ∨ uid = "" ∨ (true : Bool) = false) := by
      simp [htok, huid]
    simp only [RedisStore.authenticate]
    rw [if_neg hguard, redisSelect_none_or_selected st se hse]
    simp only [setSelected_tokenKey]
    cases he with
    | some e1 => exact ⟨_, rfl⟩
    | none =>
      cases dbLookup db (st.tokenKey ++ uid) with
      | none => exact ⟨_, rfl⟩
      | some obj =>
        by_cases hn : now > obj.ttl
        · simp only [if_pos hn]
          exact ⟨_, rfl⟩
        · simp only [if_neg hn]
          cases ce with
          | some e2 => exact ⟨_, rfl⟩
          | none =>
            by_cases hc : bcryptCompare token obj.token
            · simp only [if_pos hc]
              exact ⟨_, rfl⟩
            · simp only [if_neg hc]
              exact ⟨_, rfl⟩
  obtain ⟨out, heq⟩ := hshape
  rw [heq]
  exact ⟨rfl, [Cmd.hgetall (st.tokenKey ++ uid)], rfl, by simp⟩

theorem storeOrUpdate_select_shape (st : RedisStore) (db : DB) (now : Int)
    (salt : Nat) (se hh hm hex : Option Nat) (token uid : String) (ms : Int)
    (o : Option String) (htok : token ≠ "") (huid : uid ≠ "") (hms : ms ≠ 0)
    (hse : se = none ∨ st.selected = true) :
    (RedisStore.storeOrUpdate st db now salt se hh hm hex token uid
        (JsVal.num ms) o true).2.1 = setSelected st ∧
    ∃ tail, (RedisStore.storeOrUpdate st db now salt se hh hm hex token uid
        (JsVal.num ms) o true).2.2.2.2 = selTrace st ++ tail ∧
      ∀ n, Cmd.select n ∉ tail := by
  simp only [RedisStore.storeOrUpdate]
  have hguard : ¬(token = "" ∨ uid = "" ∨ jsTruthy (JsVal.num ms) = false ∨
      (true : Bool) = false ∨ isNumber (JsVal.num ms) = false) := by
    simp [jsTruthy, isNumber, htok, huid, hms]
  rw [if_neg hguard, redisSelect_none_or_selected st se hse]
  cases hh with
  | some e => exact ⟨rfl, [], by simp, by simp⟩
  | none =>
    cases hm with
    | some e =>
      exact ⟨rfl, [Cmd.hmset ((setSelected st).tokenKey ++ uid)
        ⟨bcryptHash 10 salt token, o.getD "", now + ms⟩], rfl, by simp⟩
    | none =>
      cases hex with
      | some e =>
        refine ⟨rfl, [Cmd.hmset ((setSelected st).tokenKey ++ uid)
            ⟨bcryptHash 10 salt token, o.getD "", now + ms⟩,
          Cmd.expire ((setSelected st).tokenKey ++ uid)
            (RedisStore.ceilDiv1000 ms)], by simp, by simp⟩
      | none =>
        refine ⟨rfl, [Cmd.hmset ((setSelected st).tokenKey ++ uid)
            ⟨bcryptHash 10 salt token, o.getD "", now + ms⟩,
          Cmd.expire ((setSelected st).tokenKey ++ uid)
            (RedisStore.ceilDiv1000 ms)], by simp, by simp⟩

theorem invalidateUser_select_shape (st : RedisStore) (db : DB)
    (se de : Option Nat) (uid : String) (huid : uid ≠ "")
    (hse : se = none ∨ st.selected = true) :
    (RedisStore.invalidateUser st db se de uid true).2.1 = setSelected st ∧
    ∃ tail, (RedisStore.invalidateUser st db se de uid true).2.2.2 =
        selTrace st ++ tail ∧ ∀ n, Cmd.select n ∉ tail := by
  simp only [RedisStore.invalidateUser]
  have hguard : ¬(uid = "" ∨ (true : Bool) = false) := by simp [huid]
  rw [if_neg hguard, redisSelect_none_or_selected st se hse]
  cases de with
  | some e =>
    exact ⟨rfl, [Cmd.del ((setSelected st).tokenKey ++ uid)], rfl, by simp⟩
  | none =>
    exact ⟨rfl, [Cmd.del ((setSelected st).tokenKey ++ uid)], rfl, by simp⟩

theorem clear_select_shape (st : RedisStore) (db : DB) (se ke : Option Nat)
    (de : String → Option Nat) (hse : se = none ∨ st.selected = true) :
    (RedisStore.clear st db se ke de true).2.1 = setSelected st ∧
    ∃ tail, (RedisStore.clear st db se ke de true).2.2.2 =
        selTrace st ++ tail ∧ ∀ n, Cmd.select n ∉ tail := by
  simp only [RedisStore.clear]
  rw [if_neg (by simp), redisSelect_none_or_selected st se hse]
  cases ke with
  | some e => exact ⟨rfl, [Cmd.keys (setSelected st).tokenKey], rfl, by simp⟩
  | none =>
    by_cases hf : (dbKeysMatching db (setSelected st).tokenKey).length > 0
    · simp only [if_pos hf]
      cases hfm : (dbKeysMatching db (setSelected st).tokenKey).filterMap de with
      | nil =>
        refine ⟨rfl, [Cmd.keys (setSelected st).tokenKey] ++
          (dbKeysMatching db (setSelected st).tokenKey).map Cmd.del,
          by simp, ?_⟩
        intro n
        simp [List.mem_map]
      | cons e0 es =>
        refine ⟨rfl, [Cmd.keys (setSelected st).tokenKey] ++
          (dbKeysMatching db (setSelected st).tokenKey).map Cmd.del,
          by simp, ?_⟩
        intro n
        simp [List.mem_map]
    · simp only [if_neg hf]
      exact ⟨by simp, [Cmd.keys (setSelected st).tokenKey], by simp, by simp⟩

theorem length_select_shape (st : RedisStore) (db : DB) (se ke : Option Nat)
    (hse : se = none ∨ st.selected = true) :
    (RedisStore.length st db se ke true).2.1 = setSelected st ∧
    ∃ tail, (RedisStore.length st db se ke true).2.2 =
        selTrace st ++ tail ∧ ∀ n, Cmd.select n ∉ tail := by
  simp only [RedisStore.length]
  rw [if_neg (by simp), redisSelect_none_or_selected st se hse]
  cases ke with
  | some e =>
    exact ⟨by simp, [Cmd.keys (setSelected st).tokenKey], by simp, by simp⟩
  | none =>
    exact ⟨by simp, [Cmd.keys (setSelected st).tokenKey], by simp, by simp⟩

/-- Claim C8: the first operation on a store instance issues the selection
command; a successful selection sets the flag so every subsequent operation
skips re-selection; a failed selection propagates its error to the
operation's caller and leaves the flag unset, so a later operation retries
the selection. -/
theorem claim_C8_partition_selection :
    (∀ st : RedisStore, st.selected = false →
       RedisStore.redisSelect st none =
         (none, setSelected st, [Cmd.select st.database]) ∧
       (setSelected st).selected = true ∧
       (∀ e, RedisStore.redisSelect st (some e) =
         (some e, st, [Cmd.select st.database]))) ∧
    (∀ (st : RedisStore) (se : Option Nat), st.selected = true →
       RedisStore.redisSelect st se = (none, st, [])) ∧
    (∀ (st : RedisStore) (db : DB) (now : Int) (he ce : Option Nat)
       (token uid : String) (e : Nat), token ≠ "" → uid ≠ "" →
       st.selected = false →
       RedisStore.authenticate st db now (some e) he ce token uid true =
         (RedisStore.AuthOut.cb (some e) false none, st,
          [Cmd.select st.database])) ∧
    (∀ (st : RedisStore) (db : DB) (now : Int) (salt : Nat)
       (hh hm hex : Option Nat) (token uid : String) (ms : Int)
       (o : Option String) (e : Nat), token ≠ "" → uid ≠ "" → ms ≠ 0 →
       st.selected = false →
       RedisStore.storeOrUpdate st db now salt (some e) hh hm hex token uid
         (JsVal.num ms) o true =
         (RedisStore.SimpleOut.cb (some e), st, db, salt,
          [Cmd.select st.database])) ∧
    (∀ (st : RedisStore) (db : DB) (de : Option Nat) (uid : String) (e : Nat),
       uid ≠ "" → st.selected = false →
       RedisStore.invalidateUser st db (some e) de uid true =
         (RedisStore.SimpleOut.cb (some e), st, db,
          [Cmd.select st.database])) ∧
    (∀ (st : RedisStore) (db : DB) (ke : Option Nat)
       (de : String → Option Nat) (e : Nat), st.selected = false →
       RedisStore.clear st db (some e) ke de true =
         (RedisStore.SimpleOut.cb (some e), st, db,
          [Cmd.select st.database])) ∧
    (∀ (st : RedisStore) (db : DB) (ke : Option Nat) (e : Nat),
       st.selected = false →
       RedisStore.length st db (some e) ke true =
         (RedisStore.LenOut.cb (some e) none, st,
          [Cmd.select st.database])) ∧
    (∀ (st : RedisStore) (db : DB) (now : Int) (se he ce : Option Nat)
       (token uid : String), token ≠ "" → uid ≠ "" →
       (se = none ∨ st.selected = true) →
       (RedisStore.authenticate st db now se he ce token uid true).2.1 =
         setSelected st ∧
       ∃ tail, (RedisStore.authenticate st db now se he ce token uid
           true).2.2 = selTrace st ++ tail ∧ ∀ n, Cmd.select n ∉ tail) ∧
    (∀ (st : RedisStore) (db : DB) (now : Int) (salt : Nat)
       (se hh hm hex : Option Nat) (token uid : String) (ms : Int)
       (o : Option String), token ≠ "" → uid ≠ "" → ms ≠ 0 →
       (se = none ∨ st.selected = true) →
       (RedisStore.storeOrUpdate st db now salt se hh hm hex token uid
           (JsVal.num ms) o true).2.1 = setSelected st ∧
       ∃ tail, (RedisStore.storeOrUpdate st db now salt se hh hm hex token
           uid (JsVal.num ms) o true).2.2.2.2 = selTrace st ++ tail ∧
         ∀ n, Cmd.select n ∉ tail) ∧
    (∀ (st : RedisStore) (db : DB) (se de : Option Nat) (uid : String),
       uid ≠ "" → (se = none ∨ st.selected = true) →
       (RedisStore.invalidateUser st db se de uid true).2.1 =
         setSelected st ∧
       ∃ tail, (RedisStore.invalidateUser st db se de uid true).2.2.2 =
           selTrace st ++ tail ∧ ∀ n, Cmd.select n ∉ tail) ∧
    (∀ (st : RedisStore) (db : DB) (se ke : Option Nat)
       (de : String → Option Nat), (se = none ∨ st.selected = true) →
       (RedisStore.clear st db se ke de true).2.1 = setSelected st ∧
       ∃ tail, (RedisStore.clear st db se ke de true).2.2.2 =
           selTrace st ++ tail ∧ ∀ n, Cmd.select n ∉ tail) ∧
    (∀ (st : RedisStore) (db : DB) (se ke : Option Nat),
       (se = none ∨ st.selected = true) →
       (RedisStore.length st db se ke true).2.1 = setSelected st ∧
       ∃ tail, (RedisStore.length st db se ke true).2.2 =
           selTrace st ++ tail ∧ ∀ n, Cmd.select n ∉ tail) := by
  refine ⟨?_, ?_, ?_, ?_, ?_, ?_, ?_, ?_, ?_, ?_, ?_, ?_⟩
  · intro st hsel
    refine ⟨?_, rfl, ?_⟩
    · rw [redisSelect_none st, selTrace_unselected st hsel]
    · intro e
      exact redisSelect_some st e hsel
  · intro st se hsel
    exact redisSelect_selected st se hsel
  · intro st db now he ce token uid e htok huid hsel
    have hguard : ¬(token = "" ∨ uid = "" ∨ (true : Bool) = false) := by
      simp [htok, huid]
    simp only [RedisStore.authenticate]
    rw [if_neg hguard, redisSelect_some st e hsel]
  · intro st db now salt hh hm hex token uid ms o e htok huid hms hsel
    have hguard : ¬(token = "" ∨ uid = "" ∨ jsTruthy (JsVal.num ms) = false ∨
        (true : Bool) = false ∨ isNumber (JsVal.num ms) = false) := by
      simp [jsTruthy, isNumber, htok, huid, hms]
    simp only [RedisStore.storeOrUpdate]
    rw [if_neg hguard, redisSelect_some st e hsel]
  · intro st db de uid e huid hsel
    have hguard : ¬(uid = "" ∨ (true : Bool) = false) := by simp [huid]
    simp only [RedisStore.invalidateUser]
    rw [if_neg hguard, redisSelect_some st e hsel]
  · intro st db ke de e hsel
    simp only [RedisStore.clear]
    rw [if_neg (by simp), redisSelect_some st e hsel]
  · intro st db ke e hsel
    simp only [RedisStore.length]
    rw [if_neg (by simp), redisSelect_some st e hsel]
  · intro st db now se he ce token uid htok huid hse
    exact authenticate_select_shape st db now se he ce token uid htok huid hse
  · intro st db now salt se hh hm hex token uid ms o htok huid hms hse
    exact storeOrUpdate_select_shape st db now salt se hh hm hex token uid ms
      o htok huid hms hse
  · intro st db se de uid huid hse
    exact invalidateUser_select_shape st db se de uid huid hse
  · intro st db se ke de hse
    exact clear_select_shape st db se ke de hse
  · intro st db se ke hse
    exact length_select_shape st db se ke hse

theorem claim_C8_partition_selection_witness :
    (RedisStore.redisSelect ⟨0, "pwdless:", false⟩ none =
       (none, ⟨0, "pwdless:", true⟩, [Cmd.select 0]) ∧
     (⟨0, "pwdless:", true⟩ : RedisStore).selected = true ∧
     (∀ e, RedisStore.redisSelect ⟨0, "pwdless:", false⟩ (some e) =
       (some e, ⟨0, "pwdless:", false⟩, [Cmd.select 0]))) ∧
    RedisStore.redisSelect ⟨0, "pwdless:", true⟩ (some 7) =
      (none, ⟨0, "pwdless:", true⟩, []) ∧
    RedisStore.authenticate ⟨0, "pwdless:", false⟩ [] 0 (some 5) none none
      "tok" "u" true =
      (RedisStore.AuthOut.cb (some 5) false none, ⟨0, "pwdless:", false⟩,
       [Cmd.select 0]) ∧
    RedisStore.storeOrUpdate ⟨0, "pwdless:", false⟩ [] 0 0 (some 5) none none
      none "tok" "u" (JsVal.num 1000) none true =
      (RedisStore.SimpleOut.cb (some 5), ⟨0, "pwdless:", false⟩, [], 0,
       [Cmd.select 0]) ∧
    RedisStore.invalidateUser ⟨0, "pwdless:", false⟩ [] (some 5) none "u"
      true =
      (RedisStore.SimpleOut.cb (some 5), ⟨0, "pwdless:", false⟩, [],
       [Cmd.select 0]) ∧
    RedisStore.clear ⟨0, "pwdless:", false⟩ [] (some 5) none (fun _ => none)
      true =
      (RedisStore.SimpleOut.cb (some 5), ⟨0, "pwdless:", false⟩, [],
       [Cmd.select 0]) ∧
    RedisStore.length ⟨0, "pwdless:", false⟩ [] (some 5) none true =
      (RedisStore.LenOut.cb (some 5) none, ⟨0, "pwdless:", false⟩,
       [Cmd.select 0]) ∧
    ((RedisStore.authenticate ⟨0, "pwdless:", false⟩ [] 0 none none none
        "tok" "u" true).2.1 = ⟨0, "pwdless:", true⟩ ∧
     ∃ tail, (RedisStore.authenticate ⟨0, "pwdless:", false⟩ [] 0 none none
         none "tok" "u" true).2.2 = [Cmd.select 0] ++ tail ∧
       ∀ n, Cmd.select n ∉ tail) ∧
    ((RedisStore.storeOrUpdate ⟨0, "pwdless:", false⟩ [] 0 0 none none none
        none "tok" "u" (JsVal.num 1000) none true).2.1 =
        ⟨0, "pwdless:", true⟩ ∧
     ∃ tail, (RedisStore.storeOrUpdate ⟨0, "pwdless:", false⟩ [] 0 0 none
         none none none "tok" "u" (JsVal.num 1000) none true).2.2.2.2 =
         [Cmd.select 0] ++ tail ∧ ∀ n, Cmd.select n ∉ tail) ∧
    ((RedisStore.invalidateUser ⟨0, "pwdless:", false⟩ [] none none "u"
        true).2.1 = ⟨0, "pwdless:", true⟩ ∧
     ∃ tail, (RedisStore.invalidateUser ⟨0, "pwdless:", false⟩ [] none none
         "u" true).2.2.2 = [Cmd.select 0] ++ tail ∧
       ∀ n, Cmd.select n ∉ tail) ∧
    ((RedisStore.clear ⟨0, "pwdless:", false⟩ [] none none (fun _ => none)
        true).2.1 = ⟨0, "pwdless:", true⟩ ∧
     ∃ tail, (RedisStore.clear ⟨0, "pwdless:", false⟩ [] none none
         (fun _ => none) true).2.2.2 = [Cmd.select 0] ++ tail ∧
       ∀ n, Cmd.select n ∉ tail) ∧
    ((RedisStore.length ⟨0, "pwdless:", false⟩ [] none none true).2.1 =
        ⟨0, "pwdless:", true⟩ ∧
     ∃ tail, (RedisStore.length ⟨0, "pwdless:", false⟩ [] none none
         true).2.2 = [Cmd.select 0] ++ tail ∧ ∀ n, Cmd.select n ∉ tail) :=
  ⟨claim_C8_partition_selection.1 ⟨0, "pwdless:", false⟩ rfl,
   claim_C8_partition_selection.2.1 ⟨0, "pwdless:", true⟩ (some 7) rfl,
   claim_C8_partition_selection.2.2.1 ⟨0, "pwdless:", false⟩ [] 0 none none
     "tok" "u" 5 (by decide) (by decide) rfl,
   claim_C8_partition_selection.2.2.2.1 ⟨0, "pwdless:", false⟩ [] 0 0 none
     none none "tok" "u" 1000 none 5 (by decide) (by decide) (by decide) rfl,
   claim_C8_partition_selection.2.2.2.2.1 ⟨0, "pwdless:", false⟩ [] none "u"
     5 (by decide) rfl,
   claim_C8_partition_selection.2.2.2.2.2.1 ⟨0, "pwdless:", false⟩ [] none
     (fun _ => none) 5 rfl,
   claim_C8_partition_selection.2.2.2.2.2.2.1 ⟨0, "pwdless:", false⟩ [] none
     5 rfl,
   claim_C8_partition_selection.2.2.2.2.2.2.2.1 ⟨0, "pwdless:", false⟩ [] 0
     none none none "tok" "u" (by decide) (by decide) (Or.inl rfl),
   claim_C8_partition_selection.2.2.2.2.2.2.2.2.1 ⟨0, "pwdless:", false⟩ []
     0 0 none none none none "tok" "u" 1000 none (by decide) (by decide)
     (by decide) (Or.inl rfl),
   claim_C8_partition_selection.2.2.2.2.2.2.2.2.2.1 ⟨0, "pwdless:", false⟩
     [] none none "u" (by decide) (Or.inl rfl),
   claim_C8_partition_selection.2.2.2.2.2.2.2.2.2.2.1 ⟨0, "pwdless:", false⟩
     [] none none (fun _ => none) (Or.inl rfl),
   claim_C8_partition_selection.2.2.2.2.2.2.2.2.2.2.2 ⟨0, "pwdless:", false⟩
     [] none none (Or.inl rfl)⟩

theorem clear_ok_eval (st : RedisStore) (db : DB) :
    RedisStore.clear st db none none (fun _ => none) true =
      (RedisStore.SimpleOut.cb none, setSelected st,
       (dbKeysMatching db st.tokenKey).foldl (fun d k => dbDel d k) db,
       selTrace st ++ [Cmd.keys st.tokenKey] ++
         (dbKeysMatching db st.tokenKey).map Cmd.del) := by
  simp only [RedisStore.clear]
  rw [if_neg (by simp), redisSelect_none st]
  simp only [setSelected_tokenKey]
  by_cases hf : (dbKeysMatching db st.tokenKey).length > 0
  · simp only [if_pos hf]
    have hfm : (dbKeysMatching db st.tokenKey).filterMap
        (fun _ => (none : Option Nat)) = [] := by simp
    rw [hfm]
    simp [List.append_assoc]
  · simp only [if_neg hf]
    have hempty : dbKeysMatching db st.tokenKey = [] :=
      List.length_eq_zero.mp (by omega)
    rw [hempty]
    simp

/-- Claim C9: `clear` enumerates the keys matching the namespace prefix and
deletes each (keys outside the namespace survive); zero matches succeed as a
no-op with no delete issued; an enumeration failure surfaces, and when any
deletion fails the first encountered error is reported. -/
theorem claim_C9_clear_namespace (st : RedisStore) (db : DB) :
    ((RedisStore.clear st db none none (fun _ => none) true).1 =
       RedisStore.SimpleOut.cb none ∧
     (∀ k, strHasPrefix st.tokenKey k = true →
        dbLookup (RedisStore.clear st db none none (fun _ => none)
          true).2.2.1 k = none) ∧
     (∀ e ∈ db, strHasPrefix st.tokenKey e.key = false →
        e ∈ (RedisStore.clear st db none none (fun _ => none) true).2.2.1)) ∧
    (dbKeysMatching db st.tokenKey = [] →
      (RedisStore.clear st db none none (fun _ => none) true).2.2.1 = db ∧
      (∀ k, Cmd.del k ∉
        (RedisStore.clear st db none none (fun _ => none) true).2.2.2)) ∧
    (∀ (e : Nat) (de : String → Option Nat),
      (RedisStore.clear st db none (some e) de true).1 =
        RedisStore.SimpleOut.cb (some e) ∧
      (RedisStore.clear st db none (some e) de true).2.2.1 = db) ∧
    (∀ (de : String → Option Nat) (e0 : Nat) (es : List Nat),
      (dbKeysMatching db st.tokenKey).filterMap de = e0 :: es →
      (RedisStore.clear st db none none de true).1 =
        RedisStore.SimpleOut.cb (some e0)) := by
  refine ⟨⟨?_, ?_, ?_⟩, ?_, ?_, ?_⟩
  · rw [clear_ok_eval]
  · intro k hk
    rw [clear_ok_eval]
    rw [show (RedisStore.SimpleOut.cb none, setSelected st,
      (dbKeysMatching db st.tokenKey).foldl (fun d k => dbDel d k) db,
      selTrace st ++ [Cmd.keys st.tokenKey] ++
        (dbKeysMatching db st.tokenKey).map Cmd.del).2.2.1 =
      (dbKeysMatching db st.tokenKey).foldl (fun d k => dbDel d k) db
      from rfl]
    rw [dbLookup_eq_none_iff]
    intro e he hkey
    have hmem := (mem_foldl_dbDel (dbKeysMatching db st.tokenKey) db e).mp he
    apply hmem.2
    exact (mem_dbKeysMatching db st.tokenKey e.key).mpr
      ⟨e, hmem.1, rfl, hkey ▸ hk⟩
  · intro e he hk
    rw [clear_ok_eval]
    refine (mem_foldl_dbDel (dbKeysMatching db st.tokenKey) db e).mpr
      ⟨he, fun hmem => ?_⟩
    obtain ⟨e2, _, hkey, hpre⟩ := (mem_dbKeysMatching db st.tokenKey
      e.key).mp hmem
    rw [hpre] at hk
    simp at hk
  · intro hempty
    rw [clear_ok_eval, hempty]
    refine ⟨rfl, ?_⟩
    intro k
    by_cases hsel : st.selected <;> simp [selTrace, hsel]
  · intro e de
    simp only [RedisStore.clear]
    rw [if_neg (by simp), redisSelect_none st]
    exact ⟨rfl, rfl⟩
  · intro de e0 es hfm
    simp only [RedisStore.clear]
    rw [if_neg (by simp), redisSelect_none st]
    simp only [setSelected_tokenKey]
    have hne : dbKeysMatching db st.tokenKey ≠ [] := by
      intro h
      rw [h] at hfm
      simp at hfm
    have hlen : (dbKeysMatching db st.tokenKey).length > 0 :=
      List.length_pos.mpr hne
    simp only [if_pos hlen]
    rw [hfm]

theorem claim_C9_clear_namespace_witness :
    (RedisStore.clear ⟨0, "pwdless:", false⟩
        [⟨"pwdless:u", ⟨"h", "", 100⟩, none⟩,
         ⟨"other:k", ⟨"h2", "", 100⟩, none⟩] none none (fun _ => none)
        true).1 = RedisStore.SimpleOut.cb none ∧
    dbLookup (RedisStore.clear ⟨0, "pwdless:", false⟩
        [⟨"pwdless:u", ⟨"h", "", 100⟩, none⟩,
         ⟨"other:k", ⟨"h2", "", 100⟩, none⟩] none none (fun _ => none)
        true).2.2.1 "pwdless:u" = none ∧
    (⟨"other:k", ⟨"h2", "", 100⟩, none⟩ : DBEntry) ∈
      (RedisStore.clear ⟨0, "pwdless:", false⟩
        [⟨"pwdless:u", ⟨"h", "", 100⟩, none⟩,
         ⟨"other:k", ⟨"h2", "", 100⟩, none⟩] none none (fun _ => none)
        true).2.2.1 ∧
    ((RedisStore.clear ⟨0, "pwdless:", false⟩
        [⟨"other:k", ⟨"h2", "", 100⟩, none⟩] none none (fun _ => none)
        true).2.2.1 = [⟨"other:k", ⟨"h2", "", 100⟩, none⟩] ∧
     (∀ k, Cmd.del k ∉ (RedisStore.clear ⟨0, "pwdless:", false⟩
        [⟨"other:k", ⟨"h2", "", 100⟩, none⟩] none none (fun _ => none)
        true).2.2.2)) ∧
    ((RedisStore.clear ⟨0, "pwdless:", false⟩
        [⟨"pwdless:u", ⟨"h", "", 100⟩, none⟩,
         ⟨"other:k", ⟨"h2", "", 100⟩, none⟩] none (some 9) (fun _ => none)
        true).1 = RedisStore.SimpleOut.cb (some 9) ∧
     (RedisStore.clear ⟨0, "pwdless:", false⟩
        [⟨"pwdless:u", ⟨"h", "", 100⟩, none⟩,
         ⟨"other:k", ⟨"h2", "", 100⟩, none⟩] none (some 9) (fun _ => none)
        true).2.2.1 =
       [⟨"pwdless:u", ⟨"h", "", 100⟩, none⟩,
        ⟨"other:k", ⟨"h2", "", 100⟩, none⟩]) ∧
    (RedisStore.clear ⟨0, "pwdless:", false⟩
        [⟨"pwdless:u", ⟨"h", "", 100⟩, none⟩,
         ⟨"other:k", ⟨"h2", "", 100⟩, none⟩] none none (fun _ => some 3)
        true).1 = RedisStore.SimpleOut.cb (some 3) :=
  ⟨(claim_C9_clear_namespace ⟨0, "pwdless:", false⟩
      [⟨"pwdless:u", ⟨"h", "", 100⟩, none⟩,
       ⟨"other:k", ⟨"h2", "", 100⟩, none⟩]).1.1,
   (claim_C9_clear_namespace ⟨0, "pwdless:", false⟩
      [⟨"pwdless:u", ⟨"h", "", 100⟩, none⟩,
       ⟨"other:k", ⟨"h2", "", 100⟩, none⟩]).1.2.1 "pwdless:u" (by decide),
   (claim_C9_clear_namespace ⟨0, "pwdless:", false⟩
      [⟨"pwdless:u", ⟨"h", "", 100⟩, none⟩,
       ⟨"other:k", ⟨"h2", "", 100⟩, none⟩]).1.2.2
      ⟨"other:k", ⟨"h2", "", 100⟩, none⟩ (by decide) (by decide),
   (claim_C9_clear_namespace ⟨0, "pwdless:", false⟩
      [⟨"other:k", ⟨"h2", "", 100⟩, none⟩]).2.1 (by decide),
   (claim_C9_clear_namespace ⟨0, "pwdless:", false⟩
      [⟨"pwdless:u", ⟨"h", "", 100⟩, none⟩,
       ⟨"other:k", ⟨"h2", "", 100⟩, none⟩]).2.2.1 9 (fun _ => none),
   (claim_C9_clear_namespace ⟨0, "pwdless:", false⟩
      [⟨"pwdless:u", ⟨"h", "", 100⟩, none⟩,
       ⟨"other:k", ⟨"h2", "", 100⟩, none⟩]).2.2.2 (fun _ => some 3) 3 []
      (by decide)⟩
